import Mathlib

/-!
Verification of the training harness of `craters-detection-by-dl`.

Shallow embedding of:
  * `src/CD_ResidualUNet/ConvBNReLU.py` — the 3×3-conv / batch-norm / ReLU block,
    modelled at the shape level (the claim under check is a shape property);
  * `src/network/model_trainer.py` — `ModelTrainer`: checkpoint save/load,
    weight initialization, and the `train` / `validate` epoch loops.

Conventions of the embedding:
  * Scalar values (losses, metric values, mask pixels, logits) are rationals `ℚ`.
  * The torch/sklearn primitives the code delegates to (forward pass, loss,
    backward+optimizer step, scheduler step, `state_dict` / `load_state_dict`)
    are abstract parameters collected in a `Hooks` structure; the loop and
    checkpoint logic itself is translated line by line from the Python source.
  * Observable effects (optimizer steps, scheduler steps, checkpoint saves,
    log lines) are recorded in an event trace. `Ev.metricsObs` additionally
    records each batch's computed (loss, precision, recall, f1) so that claims
    about per-batch metrics can be stated; it changes no state.
  * The checkpoint filesystem is an association list `List (String × Checkpoint)`
    where a save prepends (first match wins on lookup, i.e. overwrite).
  * Python's `ZeroDivisionError` (float division by an int 0) is modelled
    explicitly: when the data source is empty the run result carries
    `some PyErr.zeroDivision` and the statements after the division are not
    reached.
-/

namespace Craters

/-! ### Rounding and the sklearn metrics

`torch.round` rounds half to even, so `torch.round(torch.sigmoid(x))` is `1`
exactly when `sigmoid x > 1/2`, i.e. when `x > 0` (`sigmoid 0 = 0.5` rounds to
the even value `0`).  Predictions are therefore embedded as
`if 0 < x then 1 else 0` over the logits. -/

/-- Round half to even, as `torch.round` / `numpy` do (used on the masks). -/
def roundHalfEven (x : ℚ) : ℤ :=
  let f : ℤ := ⌊x⌋
  let r : ℚ := x - f
  if r < 1/2 then f
  else if 1/2 < r then f + 1
  else if f % 2 = 0 then f else f + 1

/-- `torch.round(torch.sigmoid(outputs))` on flattened logits. -/
def predsOfOutputs (outputs : List ℚ) : List ℤ :=
  outputs.map (fun x => if 0 < x then 1 else 0)

/-- True positives of `sklearn` binary scoring: ground truth 1 and prediction 1. -/
def tpCount (t p : List ℤ) : ℕ :=
  (t.zip p).countP (fun q => q.1 == 1 && q.2 == 1)

/-- False positives: prediction 1, ground truth not 1. -/
def fpCount (t p : List ℤ) : ℕ :=
  (t.zip p).countP (fun q => q.1 != 1 && q.2 == 1)

/-- False negatives: ground truth 1, prediction not 1. -/
def fnCount (t p : List ℤ) : ℕ :=
  (t.zip p).countP (fun q => q.1 == 1 && q.2 != 1)

/-- `sklearn.metrics.precision_score(t, p, zero_division=0.0)`:
`tp / (tp + fp)`, and `0` when there are no positive predictions. -/
def precision_score (t p : List ℤ) : ℚ :=
  if tpCount t p + fpCount t p = 0 then 0
  else (tpCount t p : ℚ) / ((tpCount t p : ℚ) + (fpCount t p : ℚ))

/-- `sklearn.metrics.recall_score(t, p)`: `tp / (tp + fn)`; with the default
`zero_division` sklearn returns `0.0` (with a warning) when `tp + fn = 0`. -/
def recall_score (t p : List ℤ) : ℚ :=
  if tpCount t p + fnCount t p = 0 then 0
  else (tpCount t p : ℚ) / ((tpCount t p : ℚ) + (fnCount t p : ℚ))

/-- `sklearn.metrics.f1_score(t, p)`: `2·tp / (2·tp + fp + fn)`, `0` when the
denominator vanishes. -/
def f1_score (t p : List ℤ) : ℚ :=
  if 2 * tpCount t p + fpCount t p + fnCount t p = 0 then 0
  else (2 * tpCount t p : ℚ) / ((2 * tpCount t p : ℚ) + (fpCount t p : ℚ) + (fnCount t p : ℚ))

/-! ### `ConvBNReLU` at the shape level

`src/CD_ResidualUNet/ConvBNReLU.py`: a `Conv2d(in_channels, out_channels,
kernel_size=3, padding=1)` followed by `BatchNorm2d(out_channels)` and `ReLU`.
The claim under check is about tensor shapes, so the block is embedded as a
shape transformer; `none` models the shape-mismatch errors the tensor library
raises on a wrong channel count or an input smaller than the padded kernel. -/

/-- Shape of a 4-d tensor `(batch, channels, height, width)`. -/
structure Shape4 where
  b : ℕ
  c : ℕ
  h : ℕ
  w : ℕ
  deriving DecidableEq, Repr

/-- Output size of one spatial dimension of `Conv2d`:
`(n + 2·padding - kernel) / stride + 1`. -/
def conv2dOutDim (n kernel padding stride : ℕ) : ℕ :=
  (n + 2 * padding - kernel) / stride + 1

/-- The `ConvBNReLU` module: its constructor arguments. -/
structure ConvBNReLU where
  in_channels : ℕ
  out_channels : ℕ
  deriving DecidableEq, Repr

/-- `self.conv`: 3×3 convolution with padding 1, stride 1.  Fails (as the
tensor library does) when the channel count mismatches or the padded input is
smaller than the kernel. -/
def ConvBNReLU.convShape (m : ConvBNReLU) (s : Shape4) : Option Shape4 :=
  if s.c = m.in_channels ∧ 3 ≤ s.h + 2 * 1 ∧ 3 ≤ s.w + 2 * 1 then
    some ⟨s.b, m.out_channels, conv2dOutDim s.h 3 1 1, conv2dOutDim s.w 3 1 1⟩
  else none

/-- `self.bn`: `BatchNorm2d(out_channels)` preserves the shape; fails on a
channel mismatch. -/
def ConvBNReLU.bnShape (m : ConvBNReLU) (s : Shape4) : Option Shape4 :=
  if s.c = m.out_channels then some s else none

/-- `self.relu`: elementwise, always shape preserving. -/
def ConvBNReLU.reluShape (s : Shape4) : Option Shape4 :=
  some s

/-- `forward`: `x = self.conv(x); x = self.bn(x); x = self.relu(x)`. -/
def ConvBNReLU.forward (m : ConvBNReLU) (s : Shape4) : Option Shape4 :=
  ((m.convShape s).bind m.bnShape).bind ConvBNReLU.reluShape

/-! ### Modules and weight initialization

`ModelTrainer.init_weights` runs `self.model.apply(self.fill_weights)`.
A torch module is a tree: leaves with parameters (`Conv2d`, `Linear`,
`BatchNorm2d`), parameterless leaves (`ReLU`), and containers.  `apply(fn)`
recurses into the children first and then applies `fn` to the node itself.
`fill_weights` checks `type(module) == nn.Conv2d or type(module) == nn.Linear`
(exact type, so containers and batch norms never match), re-draws the weight
with `kaiming_uniform_` and fills the bias with `0.01`.  The random draw of
`kaiming_uniform_` is modelled by an oracle `kaiming : List ℚ → List ℚ` giving
the freshly drawn tensor for the one being overwritten. -/

/-- A torch module tree. -/
inductive Module where
  | conv2d (weight bias : List ℚ)
  | linear (weight bias : List ℚ)
  | batchNorm2d (weight bias : List ℚ)
  | relu
  | container (children : List Module)

/-- `ModelTrainer.fill_weights` on one module. -/
def fill_weights (kaiming : List ℚ → List ℚ) : Module → Module
  | .conv2d w b => .conv2d (kaiming w) (b.map (fun _ => 1/100))
  | .linear w b => .linear (kaiming w) (b.map (fun _ => 1/100))
  | m => m

/-- `torch.nn.Module.apply(fn)`: children first, then `fn` on the node. -/
def Module.apply (f : Module → Module) : Module → Module
  | .container cs => f (.container (cs.attach.map (fun c => c.1.apply f)))
  | m => f m
decreasing_by
  simp only [Module.container.sizeOf_spec]
  have := List.sizeOf_lt_of_mem c.2
  omega

/-- `ModelTrainer.init_weights`: `self.model.apply(self.fill_weights)`. -/
def init_weights (kaiming : List ℚ → List ℚ) (model : Module) : Module :=
  model.apply (fill_weights kaiming)

/-- The specification's description of initialization (`Modelled from the
spec's words`, for comparison with `init_weights`): Kaiming-uniform on the
weight and constant `0.01` bias for every convolution and fully-connected
layer, every other kind of layer unchanged, recursing through containers. -/
def initWeightsSpec (kaiming : List ℚ → List ℚ) : Module → Module
  | .conv2d w b => .conv2d (kaiming w) (b.map (fun _ => 1/100))
  | .linear w b => .linear (kaiming w) (b.map (fun _ => 1/100))
  | .batchNorm2d w b => .batchNorm2d w b
  | .relu => .relu
  | .container cs => .container (cs.attach.map (fun c => initWeightsSpec kaiming c.1))
decreasing_by
  simp only [Module.container.sizeOf_spec]
  have := List.sizeOf_lt_of_mem c.2
  omega

/-! ### Checkpoints, `save_model`, `load_state`

The trainer's collaborators (model, optimizer, scheduler and their state
dicts) are abstract types; their torch behaviour is a `Hooks` record.
`load_state_dict` can fail (schema mismatch); `torch.load` fails when the
path has no file.  The filesystem of checkpoints is an association list where
saving prepends (lookup takes the most recent write). -/

/-- A checkpoint file: the dict written by `save_model`. -/
structure Checkpoint (MD OD SD : Type) where
  epoch : ℕ
  model_state_dict : MD
  optimizer_state_dict : OD
  scheduler_state_dict : SD
  deriving DecidableEq, Repr

/-- The mutable state owned by a `ModelTrainer`. -/
structure TrainerState (M O S : Type) where
  model : M
  optimizer : O
  scheduler : S
  deriving DecidableEq, Repr

/-- Failures of `torch.load` / `load_state_dict`. -/
inductive LoadErr where
  | fileNotFound
  | mismatch
  deriving DecidableEq, Repr

/-- Python runtime errors modelled explicitly. -/
inductive PyErr where
  | zeroDivision
  deriving DecidableEq, Repr

/-- The torch primitives the trainer delegates to. -/
structure Hooks (M O S MD OD SD Img Msk : Type) where
  mStateDict : M → MD
  oStateDict : O → OD
  sStateDict : S → SD
  mLoadStateDict : M → MD → Except LoadErr M
  oLoadStateDict : O → OD → Except LoadErr O
  sLoadStateDict : S → SD → Except LoadErr S
  forward : M → Img → List ℚ
  maskPixels : Msk → List ℚ
  lossVal : M → Img → Msk → ℚ
  zero_grad : O → O
  backwardStep : M → O → Img → Msk → M × O
  sched_step : S → S

namespace ModelTrainer

variable {M O S MD OD SD Img Msk : Type}

/-- `ModelTrainer.save_model(epoch, path)`: `torch.save` of the four-entry
dict built from the trainer's current state. -/
def save_model (H : Hooks M O S MD OD SD Img Msk) (ts : TrainerState M O S)
    (epoch : ℕ) (path : String) (fs : List (String × Checkpoint MD OD SD)) :
    List (String × Checkpoint MD OD SD) :=
  (path, ⟨epoch, H.mStateDict ts.model, H.oStateDict ts.optimizer,
          H.sStateDict ts.scheduler⟩) :: fs

/-- `ModelTrainer.load_state(model_path)`: `torch.load`, then the three
`load_state_dict` calls in source order (model, optimizer, scheduler), then
`return checkpoint['epoch']`.  Each `load_state_dict` mutates in place, so a
failure leaves the mutations already made in effect — the returned state
reflects exactly the loads completed before the failure. -/
def load_state (H : Hooks M O S MD OD SD Img Msk) (ts : TrainerState M O S)
    (fs : List (String × Checkpoint MD OD SD)) (model_path : String) :
    TrainerState M O S × Except LoadErr ℕ :=
  match List.lookup model_path fs with
  | none => (ts, .error .fileNotFound)
  | some checkpoint =>
    match H.mLoadStateDict ts.model checkpoint.model_state_dict with
    | .error e => (ts, .error e)
    | .ok m =>
      match H.oLoadStateDict ts.optimizer checkpoint.optimizer_state_dict with
      | .error e => (⟨m, ts.optimizer, ts.scheduler⟩, .error e)
      | .ok o =>
        match H.sLoadStateDict ts.scheduler checkpoint.scheduler_state_dict with
        | .error e => (⟨m, o, ts.scheduler⟩, .error e)
        | .ok s => (⟨m, o, s⟩, .ok checkpoint.epoch)

end ModelTrainer

/-! ### The epoch loops as trace-producing functions

Every observable effect of `train` / `validate` is recorded, in order, as an
event: optimizer steps, the scheduler step, checkpoint saves (by path; the
written dict lands in the filesystem component), and the two kinds of log
line (timestamps are wall-clock and not modelled; the numeric payload is).
`Ev.metricsObs` is pure instrumentation recording each batch's computed
(loss, precision, recall, f1); it corresponds to no Python side effect. -/

/-- One observable event of an epoch phase. -/
inductive Ev where
  | optStep
  | schedStep
  | saveCk (path : String)
  | logBatch (phase : String) (epoch images : ℕ) (l p r : ℚ)
  | logEnd (phase : String) (epoch : ℕ) (l p r f1 : ℚ)
  | metricsObs (l p r f1 : ℚ)
  deriving DecidableEq, Repr

/-- Is the event an optimizer step? -/
def Ev.isOptStep : Ev → Bool
  | .optStep => true
  | _ => false

/-- Is the event a scheduler step? -/
def Ev.isSchedStep : Ev → Bool
  | .schedStep => true
  | _ => false

/-- Is the event a checkpoint save? -/
def Ev.isSaveCk : Ev → Bool
  | .saveCk _ => true
  | _ => false

/-- Is the event a periodic (per-batch) log line? -/
def Ev.isLogBatch : Ev → Bool
  | .logBatch _ _ _ _ _ _ => true
  | _ => false

/-- Is the event a log line (periodic or phase-end)? -/
def Ev.isLog : Ev → Bool
  | .logBatch _ _ _ _ _ _ => true
  | .logEnd _ _ _ _ _ _ => true
  | _ => false

/-- The per-batch metric observation carried by the event, if any. -/
def Ev.metricsOf? : Ev → Option (ℚ × ℚ × ℚ × ℚ)
  | .metricsObs l p r f1 => some (l, p, r, f1)
  | _ => none

/-- The phase-end log payload carried by the event, if any. -/
def Ev.endLogOf? : Ev → Option (String × ℕ × ℚ × ℚ × ℚ × ℚ)
  | .logEnd ph e l p r f1 => some (ph, e, l, p, r, f1)
  | _ => none

/-- All per-batch metric observations of a trace, in order. -/
def obsList (tr : List Ev) : List (ℚ × ℚ × ℚ × ℚ) :=
  tr.filterMap Ev.metricsOf?

/-- All phase-end log payloads of a trace, in order. -/
def endLogs (tr : List Ev) : List (String × ℕ × ℚ × ℚ × ℚ × ℚ) :=
  tr.filterMap Ev.endLogOf?

namespace ModelTrainer

variable {M O S MD OD SD Img Msk : Type}

/-- `torch.round(torch.sigmoid(self.model(images)))` flattened. -/
def batchPreds (H : Hooks M O S MD OD SD Img Msk) (m : M) (img : Img) : List ℤ :=
  predsOfOutputs (H.forward m img)

/-- `torch.round(masks)` flattened. -/
def batchMasks (H : Hooks M O S MD OD SD Img Msk) (msk : Msk) : List ℤ :=
  (H.maskPixels msk).map roundHalfEven

/-- `precision_score(binary_masks, preds, zero_division=0.0)` of one batch. -/
def batchPrecision (H : Hooks M O S MD OD SD Img Msk) (m : M) (img : Img) (msk : Msk) : ℚ :=
  precision_score (batchMasks H msk) (batchPreds H m img)

/-- The `(batch_loss, batch_precision, batch_recall, batch_f1)` of one batch,
computed from the model state current at the start of the batch. -/
def batchMetrics (H : Hooks M O S MD OD SD Img Msk) (m : M) (b : Img × Msk) :
    ℚ × ℚ × ℚ × ℚ :=
  (H.lossVal m b.1 b.2,
   batchPrecision H m b.1 b.2,
   recall_score (batchMasks H b.2) (batchPreds H m b.1),
   f1_score (batchMasks H b.2) (batchPreds H m b.1))

/-- The checkpoint path `f'{save_path}/model_{start_time}_epoch_{epoch}.pth'`. -/
def ckPath (save_path start_time : String) (epoch : ℕ) : String :=
  s!"{save_path}/model_{start_time}_epoch_{epoch}.pth"

/-- State threaded through the `train` batch loop: the mutated model and
optimizer, the checkpoint filesystem, the event trace, and the four running
metric sums. -/
structure TrainLoopSt (M O MD OD SD : Type) where
  model : M
  optim : O
  fs : List (String × Checkpoint MD OD SD)
  trace : List Ev
  sumL : ℚ
  sumP : ℚ
  sumR : ℚ
  sumF1 : ℚ

/-- The events emitted by one `train` batch iteration. -/
def trainBatchEvs (H : Hooks M O S MD OD SD Img Msk) (epoch : ℕ)
    (batch_size save_interval : ℕ) (save_path start_time : String)
    (m : M) (idx : ℕ) (b : Img × Msk) : List Ev :=
  let q := batchMetrics H m b
  [Ev.optStep, Ev.metricsObs q.1 q.2.1 q.2.2.1 q.2.2.2] ++
    (if idx % save_interval == 0 then
      [Ev.saveCk (ckPath save_path start_time epoch),
       Ev.logBatch "train" epoch (idx * batch_size) q.1 q.2.1 q.2.2.1]
    else [])

/-- One iteration of the `train` loop body (`model_trainer.py` lines 75–104):
zero grads, forward, round predictions and masks, loss, backward, optimizer
step, metrics, accumulate, and every `save_interval`-th index a checkpoint
save plus a periodic log line. -/
def trainBatch (H : Hooks M O S MD OD SD Img Msk) (sched : S) (epoch : ℕ)
    (batch_size save_interval : ℕ) (save_path start_time : String)
    (st : TrainLoopSt M O MD OD SD) (idx : ℕ) (b : Img × Msk) :
    TrainLoopSt M O MD OD SD :=
  let q := batchMetrics H st.model b
  let mo := H.backwardStep st.model (H.zero_grad st.optim) b.1 b.2
  ⟨mo.1, mo.2,
   if idx % save_interval == 0 then
     save_model H ⟨mo.1, mo.2, sched⟩ epoch (ckPath save_path start_time epoch) st.fs
   else st.fs,
   st.trace ++ trainBatchEvs H epoch batch_size save_interval save_path start_time
     st.model idx b,
   st.sumL + q.1, st.sumP + q.2.1, st.sumR + q.2.2.1, st.sumF1 + q.2.2.2⟩

/-- `for batch_idx, (images, masks) in enumerate(self.train_loader)`. -/
def runTrain (H : Hooks M O S MD OD SD Img Msk) (sched : S) (epoch : ℕ)
    (batch_size save_interval : ℕ) (save_path start_time : String) :
    TrainLoopSt M O MD OD SD → ℕ → List (Img × Msk) → TrainLoopSt M O MD OD SD
  | st, _, [] => st
  | st, idx, b :: bs =>
    runTrain H sched epoch batch_size save_interval save_path start_time
      (trainBatch H sched epoch batch_size save_interval save_path start_time st idx b)
      (idx + 1) bs

/-- The result of one `train` / `validate` call: trainer state, checkpoint
filesystem, event trace, and the Python exception if one was raised. -/
structure RunResult (M O S MD OD SD : Type) where
  st : TrainerState M O S
  fs : List (String × Checkpoint MD OD SD)
  trace : List Ev
  err : Option PyErr

/-- `ModelTrainer.train(epoch, start_time, batch_size, save_path,
save_interval)` over a training source given as the list of its batches.
After the loop the four sums are divided by `len(self.train_loader)` — a
`ZeroDivisionError` when the source is empty, in which case the scheduler
step and the final log line are never reached. -/
def train (H : Hooks M O S MD OD SD Img Msk) (ts : TrainerState M O S)
    (fs : List (String × Checkpoint MD OD SD)) (epoch : ℕ)
    (start_time : String) (batch_size : ℕ) (save_path : String)
    (save_interval : ℕ) (batches : List (Img × Msk)) :
    RunResult M O S MD OD SD :=
  let st := runTrain H ts.scheduler epoch batch_size save_interval save_path start_time
    ⟨ts.model, ts.optimizer, fs, [], 0, 0, 0, 0⟩ 0 batches
  if batches.length = 0 then
    ⟨⟨st.model, st.optim, ts.scheduler⟩, st.fs, st.trace, some PyErr.zeroDivision⟩
  else
    let n : ℚ := batches.length
    ⟨⟨st.model, st.optim, H.sched_step ts.scheduler⟩, st.fs,
     st.trace ++ [Ev.schedStep,
       Ev.logEnd "train" epoch (st.sumL / n) (st.sumP / n) (st.sumR / n) (st.sumF1 / n)],
     none⟩

/-- State threaded through the `validate` batch loop: only the trace and the
running sums — validation touches neither the trainer state nor the
checkpoint filesystem. -/
structure ValidLoopSt where
  trace : List Ev
  sumL : ℚ
  sumP : ℚ
  sumR : ℚ
  sumF1 : ℚ
  deriving DecidableEq, Repr

/-- The events emitted by one `validate` batch iteration. -/
def validBatchEvs (H : Hooks M O S MD OD SD Img Msk) (m : M) (epoch : ℕ)
    (batch_size save_interval : ℕ) (idx : ℕ) (b : Img × Msk) : List Ev :=
  let q := batchMetrics H m b
  [Ev.metricsObs q.1 q.2.1 q.2.2.1 q.2.2.2] ++
    (if idx % save_interval == 0 then
      [Ev.logBatch "valid" epoch (idx * batch_size) q.1 q.2.1 q.2.2.1]
    else [])

/-- One iteration of the `validate` loop body (`model_trainer.py` lines
133–157): forward under `no_grad`, metrics, accumulate, and every
`save_interval`-th index a periodic log line (no checkpoint save). -/
def validBatch (H : Hooks M O S MD OD SD Img Msk) (m : M) (epoch : ℕ)
    (batch_size save_interval : ℕ) (st : ValidLoopSt) (idx : ℕ)
    (b : Img × Msk) : ValidLoopSt :=
  let q := batchMetrics H m b
  ⟨st.trace ++ validBatchEvs H m epoch batch_size save_interval idx b,
   st.sumL + q.1, st.sumP + q.2.1, st.sumR + q.2.2.1, st.sumF1 + q.2.2.2⟩

/-- `for batch_idx, (images, masks) in enumerate(self.valid_loader)`. -/
def runValid (H : Hooks M O S MD OD SD Img Msk) (m : M) (epoch : ℕ)
    (batch_size save_interval : ℕ) :
    ValidLoopSt → ℕ → List (Img × Msk) → ValidLoopSt
  | st, _, [] => st
  | st, idx, b :: bs =>
    runValid H m epoch batch_size save_interval
      (validBatch H m epoch batch_size save_interval st idx b) (idx + 1) bs

/-- `ModelTrainer.validate(epoch, start_time, batch_size, save_path,
save_interval)` over a validation source given as the list of its batches.
`model.eval()` and `torch.no_grad()` mean no state is mutated; the sums are
divided by `len(self.valid_loader)` — a `ZeroDivisionError` when the source
is empty, in which case the final log line is never reached. -/
def validate (H : Hooks M O S MD OD SD Img Msk) (ts : TrainerState M O S)
    (fs : List (String × Checkpoint MD OD SD)) (epoch : ℕ)
    (start_time : String) (batch_size : ℕ) (save_path : String)
    (save_interval : ℕ) (batches : List (Img × Msk)) :
    RunResult M O S MD OD SD :=
  let v := runValid H ts.model epoch batch_size save_interval ⟨[], 0, 0, 0, 0⟩ 0 batches
  if batches.length = 0 then
    ⟨ts, fs, v.trace, some PyErr.zeroDivision⟩
  else
    let n : ℚ := batches.length
    ⟨ts, fs,
     v.trace ++ [Ev.logEnd "valid" epoch (v.sumL / n) (v.sumP / n) (v.sumR / n) (v.sumF1 / n)],
     none⟩

end ModelTrainer

/-! ### Concrete collaborators for instantiating the generic theorems

Model, optimizer, scheduler and the state dicts are all `ℚ`; images and
masks are flattened pixel lists.  The forward pass shifts the pixels by the
model parameter, so the model state is observable through `forward`. -/

/-- Well-behaved concrete hooks: `load_state_dict` restores exactly the
saved dict. -/
def demoHooks : Hooks ℚ ℚ ℚ ℚ ℚ ℚ (List ℚ) (List ℚ) :=
  ⟨id, id, id,
   fun _ d => Except.ok d, fun _ d => Except.ok d, fun _ d => Except.ok d,
   fun m img => img.map (fun x => x - m),
   id,
   fun _ _ _ => 1,
   id,
   fun m o _ _ => (m + 1, o + 1),
   fun s => s + 1⟩

/-- Hooks whose optimizer `load_state_dict` always reports a schema
mismatch, while the model's succeeds. -/
def oFailHooks : Hooks ℚ ℚ ℚ ℚ ℚ ℚ (List ℚ) (List ℚ) :=
  ⟨id, id, id,
   fun _ d => Except.ok d, fun _ _ => Except.error LoadErr.mismatch,
   fun _ d => Except.ok d,
   fun _ img => img,
   id,
   fun _ _ _ => 1,
   id,
   fun m o _ _ => (m, o),
   fun s => s⟩

/-! ## Claim theorems -/

/-- **C8**: for every input of shape `(B, C, H, W)` with `C = in_channels`
and `H, W ≥ 1`, `ConvBNReLU.forward` yields shape `(B, out_channels, H, W)`:
the 3×3 kernel with padding 1 preserves the spatial dimensions. -/
theorem C8_convBNReLU_shape (m : ConvBNReLU) (s : Shape4)
    (hc : s.c = m.in_channels) (hh : 1 ≤ s.h) (hw : 1 ≤ s.w) :
    m.forward s = some ⟨s.b, m.out_channels, s.h, s.w⟩ := by
  have h1 : (3 : ℕ) ≤ s.h + 2 * 1 := by omega
  have h2 : (3 : ℕ) ≤ s.w + 2 * 1 := by omega
  have e1 : conv2dOutDim s.h 3 1 1 = s.h := by unfold conv2dOutDim; omega
  have e2 : conv2dOutDim s.w 3 1 1 = s.w := by unfold conv2dOutDim; omega
  simp [ConvBNReLU.forward, ConvBNReLU.convShape, ConvBNReLU.bnShape,
    ConvBNReLU.reluShape, hc, h1, h2, e1, e2]

/-- Witness for C8 at a concrete shape. -/
theorem C8_convBNReLU_shape_witness :
    ConvBNReLU.forward ⟨3, 16⟩ ⟨2, 3, 5, 7⟩ = some ⟨2, 16, 5, 7⟩ :=
  C8_convBNReLU_shape ⟨3, 16⟩ ⟨2, 3, 5, 7⟩ rfl (by decide) (by decide)

/-- **C5**: whenever the rounded predictions of a batch contain no positive
pixel, the batch precision computed by `train` and `validate` (both call
`batchPrecision`, i.e. `precision_score` with `zero_division=0.0`) is exactly
`0`, with no error raised. -/
theorem C5_precision_zero_on_no_positive_preds
    {M O S MD OD SD Img Msk : Type} (H : Hooks M O S MD OD SD Img Msk)
    (m : M) (img : Img) (msk : Msk)
    (h : ∀ v ∈ ModelTrainer.batchPreds H m img, v ≠ 1) :
    ModelTrainer.batchPrecision H m img msk = 0 := by
  unfold ModelTrainer.batchPrecision precision_score
  rw [if_pos]
  have htp : tpCount (ModelTrainer.batchMasks H msk) (ModelTrainer.batchPreds H m img) = 0 := by
    unfold tpCount
    rw [List.countP_eq_zero]
    rintro ⟨x, y⟩ hq
    have hy := (List.of_mem_zip hq).2
    have := h y hy
    simp [this]
  have hfp : fpCount (ModelTrainer.batchMasks H msk) (ModelTrainer.batchPreds H m img) = 0 := by
    unfold fpCount
    rw [List.countP_eq_zero]
    rintro ⟨x, y⟩ hq
    have hy := (List.of_mem_zip hq).2
    have := h y hy
    simp [this]
  omega

/-- Witness for C5: a batch whose two predictions are both `0`. -/
theorem C5_precision_zero_witness :
    (∀ v ∈ ModelTrainer.batchPreds demoHooks 0 [0, -1], v ≠ 1) ∧
    ModelTrainer.batchPrecision demoHooks 0 [0, -1] [1, 0] = 0 :=
  ⟨by norm_num [ModelTrainer.batchPreds, demoHooks, predsOfOutputs],
   C5_precision_zero_on_no_positive_preds demoHooks 0 [0, -1] [1, 0]
     (by norm_num [ModelTrainer.batchPreds, demoHooks, predsOfOutputs])⟩

/-- **C10**: on an empty data source both `train` and `validate` raise a
`ZeroDivisionError` at the metric averaging; consequently no phase-end log
line is produced and, in `train`, the scheduler step is never reached. -/
theorem C10_empty_source_divzero {M O S MD OD SD Img Msk : Type}
    (H : Hooks M O S MD OD SD Img Msk) (ts : TrainerState M O S)
    (fs : List (String × Checkpoint MD OD SD)) (epoch : ℕ)
    (start_time : String) (batch_size : ℕ) (save_path : String)
    (save_interval : ℕ) :
    (ModelTrainer.train H ts fs epoch start_time batch_size save_path save_interval []).err
        = some PyErr.zeroDivision ∧
    (ModelTrainer.train H ts fs epoch start_time batch_size save_path save_interval []).trace
        = [] ∧
    (ModelTrainer.validate H ts fs epoch start_time batch_size save_path save_interval []).err
        = some PyErr.zeroDivision ∧
    (ModelTrainer.validate H ts fs epoch start_time batch_size save_path save_interval []).trace
        = [] :=
  ⟨rfl, rfl, rfl, rfl⟩

/-- **C1**: assuming the torch contract that `load_state_dict` of a
`state_dict()` restores exactly the saved state, `save_model(e, p)` followed
by `load_state(p)` on the same trainer returns epoch `e`, restores the
model/optimizer/scheduler state unchanged, and a subsequent forward pass on
the same input yields the same output as before the save. -/
theorem C1_save_load_round_trip {M O S MD OD SD Img Msk : Type}
    (H : Hooks M O S MD OD SD Img Msk)
    (hm : ∀ (x y : M), H.mLoadStateDict x (H.mStateDict y) = Except.ok y)
    (ho : ∀ (x y : O), H.oLoadStateDict x (H.oStateDict y) = Except.ok y)
    (hs : ∀ (x y : S), H.sLoadStateDict x (H.sStateDict y) = Except.ok y)
    (ts : TrainerState M O S) (e : ℕ) (p : String)
    (fs : List (String × Checkpoint MD OD SD)) (img : Img) :
    ModelTrainer.load_state H ts (ModelTrainer.save_model H ts e p fs) p = (ts, Except.ok e) ∧
    H.forward (ModelTrainer.load_state H ts (ModelTrainer.save_model H ts e p fs) p).1.model img
      = H.forward ts.model img := by
  have key : ModelTrainer.load_state H ts (ModelTrainer.save_model H ts e p fs) p
      = (ts, Except.ok e) := by
    unfold ModelTrainer.load_state ModelTrainer.save_model
    simp [List.lookup, hm, ho, hs]
  exact ⟨key, by rw [key]⟩

/-- Witness for C1 with the concrete well-behaved hooks. -/
theorem C1_save_load_round_trip_witness :
    ModelTrainer.load_state demoHooks ⟨2, 3, 4⟩
        (ModelTrainer.save_model demoHooks ⟨2, 3, 4⟩ 7 "ck" []) "ck"
      = (⟨2, 3, 4⟩, Except.ok 7) ∧
    demoHooks.forward (ModelTrainer.load_state demoHooks ⟨2, 3, 4⟩
        (ModelTrainer.save_model demoHooks ⟨2, 3, 4⟩ 7 "ck" []) "ck").1.model [1]
      = demoHooks.forward (TrainerState.model ⟨2, 3, 4⟩) [1] :=
  C1_save_load_round_trip demoHooks (fun _ _ => rfl) (fun _ _ => rfl) (fun _ _ => rfl)
    ⟨2, 3, 4⟩ 7 "ck" [] [1]

/-- **C2 counterexample**: with a checkpoint whose optimizer dict mismatches
the running optimizer, `load_state` fails — but the model state has already
been replaced by the checkpoint's value `5` (the trainer started at `0`): a
partial restore is observable, so the restore is not atomic. -/
theorem C2_partial_restore_counterexample :
    (ModelTrainer.load_state oFailHooks ⟨0, 0, 0⟩ [("ck", ⟨7, 5, 5, 5⟩)] "ck").2
        = Except.error LoadErr.mismatch ∧
    (ModelTrainer.load_state oFailHooks ⟨0, 0, 0⟩ [("ck", ⟨7, 5, 5, 5⟩)] "ck").1.model = 5 ∧
    (5 : ℚ) ≠ 0 :=
  ⟨rfl, rfl, by decide⟩

/-- **C2 amended**: if loading any of the three states fails, the resume
fails (an error is returned instead of the epoch) and the scheduler state is
never partially installed; however, states loaded before the failure point
(model, then optimizer) remain installed, so the restore is not atomic. -/
theorem C2_load_failure_keeps_scheduler {M O S MD OD SD Img Msk : Type}
    (H : Hooks M O S MD OD SD Img Msk) (ts : TrainerState M O S)
    (fs : List (String × Checkpoint MD OD SD)) (p : String)
    (h : ∃ e, (ModelTrainer.load_state H ts fs p).2 = Except.error e) :
    (ModelTrainer.load_state H ts fs p).1.scheduler = ts.scheduler := by
  obtain ⟨e, he⟩ := h
  unfold ModelTrainer.load_state at he ⊢
  cases hl : List.lookup p fs with
  | none => simp [hl]
  | some cp =>
    simp only [hl] at he ⊢
    cases hm : H.mLoadStateDict ts.model cp.model_state_dict with
    | error em => simp [hm]
    | ok m =>
      simp only [hm] at he ⊢
      cases hoo : H.oLoadStateDict ts.optimizer cp.optimizer_state_dict with
      | error eo => simp [hoo]
      | ok o =>
        simp only [hoo] at he ⊢
        cases hss : H.sLoadStateDict ts.scheduler cp.scheduler_state_dict with
        | error es => simp [hss]
        | ok s => simp [hss] at he

/-- Witness for the amended C2 at the failing concrete instance. -/
theorem C2_load_failure_keeps_scheduler_witness :
    (ModelTrainer.load_state oFailHooks ⟨0, 0, 0⟩ [("ck", ⟨7, 5, 5, 5⟩)] "ck").1.scheduler
      = (0 : ℚ) :=
  C2_load_failure_keeps_scheduler oFailHooks ⟨0, 0, 0⟩ [("ck", ⟨7, 5, 5, 5⟩)] "ck"
    ⟨LoadErr.mismatch, rfl⟩

/-! ### Loop lemmas: event counts of the batch loops -/

/-- Counting events over the `train` loop: if every batch iteration at index
`idx` contributes `c idx` events satisfying `q`, the loop over `bs` starting
at `idx` contributes `Σ_j c (idx + j)`. -/
theorem runTrain_trace_countP {M O S MD OD SD Img Msk : Type}
    (H : Hooks M O S MD OD SD Img Msk) (sched : S) (epoch : ℕ)
    (batch_size save_interval : ℕ) (save_path start_time : String)
    (q : Ev → Bool) (c : ℕ → ℕ)
    (hc : ∀ (m : M) (idx : ℕ) (b : Img × Msk),
      (ModelTrainer.trainBatchEvs H epoch batch_size save_interval save_path start_time
        m idx b).countP q = c idx) :
    ∀ (bs : List (Img × Msk)) (st : ModelTrainer.TrainLoopSt M O MD OD SD) (idx : ℕ),
      ((ModelTrainer.runTrain H sched epoch batch_size save_interval save_path start_time
          st idx bs).trace.countP q)
        = st.trace.countP q + ((List.range bs.length).map (fun j => c (idx + j))).sum := by
  intro bs
  induction bs with
  | nil =>
    intro st idx
    simp [ModelTrainer.runTrain]
  | cons b bs ih =>
    intro st idx
    rw [ModelTrainer.runTrain, ih]
    have hstep : (ModelTrainer.trainBatch H sched epoch batch_size save_interval save_path
        start_time st idx b).trace.countP q = st.trace.countP q + c idx := by
      simp [ModelTrainer.trainBatch, List.countP_append, hc]
    rw [hstep]
    simp only [List.length_cons]
    rw [List.range_succ_eq_map]
    simp only [List.map_cons, List.map_map, List.sum_cons, Nat.add_zero]
    have hfun : ((fun j => c (idx + j)) ∘ Nat.succ) = (fun j => c (idx + 1 + j)) := by
      funext j
      simp only [Function.comp]
      congr 1
      omega
    rw [hfun, Nat.add_assoc]

/-- Counting events over the `validate` loop, same scheme. -/
theorem runValid_trace_countP {M O S MD OD SD Img Msk : Type}
    (H : Hooks M O S MD OD SD Img Msk) (m : M) (epoch : ℕ)
    (batch_size save_interval : ℕ) (q : Ev → Bool) (c : ℕ → ℕ)
    (hc : ∀ (idx : ℕ) (b : Img × Msk),
      (ModelTrainer.validBatchEvs H m epoch batch_size save_interval idx b).countP q = c idx) :
    ∀ (bs : List (Img × Msk)) (st : ModelTrainer.ValidLoopSt) (idx : ℕ),
      ((ModelTrainer.runValid H m epoch batch_size save_interval st idx bs).trace.countP q)
        = st.trace.countP q + ((List.range bs.length).map (fun j => c (idx + j))).sum := by
  intro bs
  induction bs with
  | nil =>
    intro st idx
    simp [ModelTrainer.runValid]
  | cons b bs ih =>
    intro st idx
    rw [ModelTrainer.runValid, ih]
    have hstep : (ModelTrainer.validBatch H m epoch batch_size save_interval st idx b).trace.countP q
        = st.trace.countP q + c idx := by
      simp [ModelTrainer.validBatch, List.countP_append, hc]
    rw [hstep]
    simp only [List.length_cons]
    rw [List.range_succ_eq_map]
    simp only [List.map_cons, List.map_map, List.sum_cons, Nat.add_zero]
    have hfun : ((fun j => c (idx + j)) ∘ Nat.succ) = (fun j => c (idx + 1 + j)) := by
      funext j
      simp only [Function.comp]
      congr 1
      omega
    rw [hfun, Nat.add_assoc]

/-- **C3**: on a source of `N ≥ 1` batches (and a positive `save_interval`),
one `train` call performs exactly `N` optimizer steps — one per batch — and
exactly one scheduler step, at phase end. -/
theorem C3_train_step_counts {M O S MD OD SD Img Msk : Type}
    (H : Hooks M O S MD OD SD Img Msk) (ts : TrainerState M O S)
    (fs : List (String × Checkpoint MD OD SD)) (epoch : ℕ)
    (start_time : String) (batch_size : ℕ) (save_path : String)
    (save_interval : ℕ) (batches : List (Img × Msk))
    (hN : 1 ≤ batches.length) (hsi : 0 < save_interval) :
    ((ModelTrainer.train H ts fs epoch start_time batch_size save_path save_interval
        batches).trace.countP Ev.isOptStep) = batches.length ∧
    ((ModelTrainer.train H ts fs epoch start_time batch_size save_path save_interval
        batches).trace.countP Ev.isSchedStep) = 1 := by
  have hopt := runTrain_trace_countP H ts.scheduler epoch batch_size save_interval
    save_path start_time Ev.isOptStep (fun _ => 1)
    (by
      intro m idx b
      simp only [ModelTrainer.trainBatchEvs]
      split <;> simp [Ev.isOptStep])
    batches ⟨ts.model, ts.optimizer, fs, [], 0, 0, 0, 0⟩ 0
  have hsch := runTrain_trace_countP H ts.scheduler epoch batch_size save_interval
    save_path start_time Ev.isSchedStep (fun _ => 0)
    (by
      intro m idx b
      simp only [ModelTrainer.trainBatchEvs]
      split <;> simp [Ev.isSchedStep])
    batches ⟨ts.model, ts.optimizer, fs, [], 0, 0, 0, 0⟩ 0
  unfold ModelTrainer.train
  rw [if_neg (by omega)]
  constructor
  · simp only [List.countP_append, hopt]
    simp [Ev.isOptStep, Ev.isSchedStep, List.countP_cons, List.map_const', List.sum_replicate]
  · simp only [List.countP_append, hsch]
    simp [Ev.isSchedStep, List.countP_cons, List.map_const', List.sum_replicate]

/-- Witness for C3: three batches, the default `save_interval=50`. -/
theorem C3_train_step_counts_witness :
    1 ≤ (List.replicate 3 (([0], [0]) : List ℚ × List ℚ)).length ∧ 0 < 50 ∧
    ((ModelTrainer.train demoHooks ⟨0, 0, 0⟩ [] 4 "t" 2 "out" 50
        (List.replicate 3 ([0], [0]))).trace.countP Ev.isOptStep)
      = (List.replicate 3 (([0], [0]) : List ℚ × List ℚ)).length ∧
    ((ModelTrainer.train demoHooks ⟨0, 0, 0⟩ [] 4 "t" 2 "out" 50
        (List.replicate 3 ([0], [0]))).trace.countP Ev.isSchedStep) = 1 := by
  have h := C3_train_step_counts demoHooks ⟨0, 0, 0⟩ [] 4 "t" 2 "out" 50
    (List.replicate 3 ([0], [0])) (by decide) (by decide)
  exact ⟨by decide, by decide, h.1, h.2⟩

/-- **C4**: `validate` performs no optimizer step, no scheduler step and no
checkpoint save; the trainer state (model, optimizer, scheduler) and the
checkpoint filesystem are returned unchanged — its only events are log lines
(plus the pure metric observations of the embedding). -/
theorem C4_validate_is_read_only {M O S MD OD SD Img Msk : Type}
    (H : Hooks M O S MD OD SD Img Msk) (ts : TrainerState M O S)
    (fs : List (String × Checkpoint MD OD SD)) (epoch : ℕ)
    (start_time : String) (batch_size : ℕ) (save_path : String)
    (save_interval : ℕ) (batches : List (Img × Msk)) :
    (ModelTrainer.validate H ts fs epoch start_time batch_size save_path save_interval
        batches).st = ts ∧
    (ModelTrainer.validate H ts fs epoch start_time batch_size save_path save_interval
        batches).fs = fs ∧
    ((ModelTrainer.validate H ts fs epoch start_time batch_size save_path save_interval
        batches).trace.countP Ev.isOptStep) = 0 ∧
    ((ModelTrainer.validate H ts fs epoch start_time batch_size save_path save_interval
        batches).trace.countP Ev.isSchedStep) = 0 ∧
    ((ModelTrainer.validate H ts fs epoch start_time batch_size save_path save_interval
        batches).trace.countP Ev.isSaveCk) = 0 ∧
    ∀ ev ∈ (ModelTrainer.validate H ts fs epoch start_time batch_size save_path save_interval
        batches).trace, ev.isLog = true ∨ (ev.metricsOf?).isSome = true := by
  have hzero : ∀ (q : Ev → Bool),
      (∀ idx (b : Img × Msk),
        (ModelTrainer.validBatchEvs H ts.model epoch batch_size save_interval idx b).countP q = 0) →
      ((ModelTrainer.runValid H ts.model epoch batch_size save_interval
          ⟨[], 0, 0, 0, 0⟩ 0 batches).trace.countP q) = 0 := by
    intro q hq
    rw [runValid_trace_countP H ts.model epoch batch_size save_interval q (fun _ => 0) hq
      batches ⟨[], 0, 0, 0, 0⟩ 0]
    simp
  have hopt := hzero Ev.isOptStep (by
    intro idx b
    simp only [ModelTrainer.validBatchEvs]
    split <;> simp [Ev.isOptStep])
  have hsch := hzero Ev.isSchedStep (by
    intro idx b
    simp only [ModelTrainer.validBatchEvs]
    split <;> simp [Ev.isSchedStep])
  have hsv := hzero Ev.isSaveCk (by
    intro idx b
    simp only [ModelTrainer.validBatchEvs]
    split <;> simp [Ev.isSaveCk])
  have hlog : ∀ ev ∈ (ModelTrainer.runValid H ts.model epoch batch_size save_interval
      (⟨[], 0, 0, 0, 0⟩ : ModelTrainer.ValidLoopSt) 0 batches).trace,
      ev.isLog = true ∨ (ev.metricsOf?).isSome = true := by
    suffices hgen : ∀ (bs : List (Img × Msk)) (st : ModelTrainer.ValidLoopSt) (idx : ℕ),
        (∀ ev ∈ st.trace, ev.isLog = true ∨ (ev.metricsOf?).isSome = true) →
        ∀ ev ∈ (ModelTrainer.runValid H ts.model epoch batch_size save_interval
            st idx bs).trace, ev.isLog = true ∨ (ev.metricsOf?).isSome = true by
      exact hgen batches ⟨[], 0, 0, 0, 0⟩ 0 (by simp)
    intro bs
    induction bs with
    | nil =>
      intro st idx hst
      simpa [ModelTrainer.runValid] using hst
    | cons b bs ih =>
      intro st idx hst
      rw [ModelTrainer.runValid]
      refine ih _ _ ?_
      intro ev hev
      simp only [ModelTrainer.validBatch, List.mem_append] at hev
      rcases hev with hev | hev
      · exact hst ev hev
      · simp only [ModelTrainer.validBatchEvs] at hev
        rcases List.mem_append.mp hev with h1 | h1
        · simp only [List.mem_cons, List.not_mem_nil, or_false] at h1
          subst h1
          right
          rfl
        · revert h1
          split
          · intro h1
            simp only [List.mem_cons, List.not_mem_nil, or_false] at h1
            subst h1
            left
            rfl
          · intro h1
            simp at h1
  unfold ModelTrainer.validate
  split
  · exact ⟨rfl, rfl, by simpa using hopt, by simpa using hsch, by simpa using hsv,
      by simpa using hlog⟩
  · refine ⟨rfl, rfl, ?_, ?_, ?_, ?_⟩
    · simp only [List.countP_append, hopt]
      simp [Ev.isOptStep, List.countP_cons]
    · simp only [List.countP_append, hsch]
      simp [Ev.isSchedStep, List.countP_cons]
    · simp only [List.countP_append, hsv]
      simp [Ev.isSaveCk, List.countP_cons]
    · intro ev hev
      simp only [List.mem_append] at hev
      rcases hev with hev | hev
      · exact hlog ev hev
      · simp only [List.mem_cons, List.not_mem_nil, or_false] at hev
        subst hev
        left
        rfl

/-- **C7**: during `train`, a checkpoint save and its periodic log line occur
exactly at the batches whose zero-based index is a multiple of
`save_interval`. -/
theorem C7_save_at_multiples {M O S MD OD SD Img Msk : Type}
    (H : Hooks M O S MD OD SD Img Msk) (ts : TrainerState M O S)
    (fs : List (String × Checkpoint MD OD SD)) (epoch : ℕ)
    (start_time : String) (batch_size : ℕ) (save_path : String)
    (save_interval : ℕ) (batches : List (Img × Msk))
    (hsi : 0 < save_interval) :
    ((ModelTrainer.train H ts fs epoch start_time batch_size save_path save_interval
        batches).trace.countP Ev.isSaveCk)
      = (List.range batches.length).countP (fun j => j % save_interval == 0) ∧
    ((ModelTrainer.train H ts fs epoch start_time batch_size save_path save_interval
        batches).trace.countP Ev.isLogBatch)
      = (List.range batches.length).countP (fun j => j % save_interval == 0) := by
  have hsum : ∀ n : ℕ,
      ((List.range n).map (fun j => if j % save_interval == 0 then 1 else 0)).sum
        = (List.range n).countP (fun j => j % save_interval == 0) := by
    intro n
    induction n with
    | zero => simp
    | succ n ih =>
      rw [List.range_succ]
      simp only [List.map_append, List.map_cons, List.map_nil, List.sum_append,
        List.countP_append, List.sum_cons, List.sum_nil, List.countP_cons, List.countP_nil,
        ih]
      split <;> simp_all
  have hsv := runTrain_trace_countP H ts.scheduler epoch batch_size save_interval
    save_path start_time Ev.isSaveCk (fun j => if j % save_interval == 0 then 1 else 0)
    (by
      intro m idx b
      simp only [ModelTrainer.trainBatchEvs]
      split <;> simp_all [Ev.isSaveCk])
    batches ⟨ts.model, ts.optimizer, fs, [], 0, 0, 0, 0⟩ 0
  have hlb := runTrain_trace_countP H ts.scheduler epoch batch_size save_interval
    save_path start_time Ev.isLogBatch (fun j => if j % save_interval == 0 then 1 else 0)
    (by
      intro m idx b
      simp only [ModelTrainer.trainBatchEvs]
      split <;> simp_all [Ev.isLogBatch])
    batches ⟨ts.model, ts.optimizer, fs, [], 0, 0, 0, 0⟩ 0
  have hsv2 : ((ModelTrainer.runTrain H ts.scheduler epoch batch_size save_interval save_path
      start_time ⟨ts.model, ts.optimizer, fs, [], 0, 0, 0, 0⟩ 0 batches).trace.countP Ev.isSaveCk)
      = (List.range batches.length).countP (fun j => j % save_interval == 0) := by
    rw [hsv]
    simpa [Nat.zero_add] using hsum batches.length
  have hlb2 : ((ModelTrainer.runTrain H ts.scheduler epoch batch_size save_interval save_path
      start_time ⟨ts.model, ts.optimizer, fs, [], 0, 0, 0, 0⟩ 0 batches).trace.countP Ev.isLogBatch)
      = (List.range batches.length).countP (fun j => j % save_interval == 0) := by
    rw [hlb]
    simpa [Nat.zero_add] using hsum batches.length
  unfold ModelTrainer.train
  split
  · exact ⟨hsv2, hlb2⟩
  · constructor
    · simp only [List.countP_append, hsv2]
      simp [Ev.isSaveCk, List.countP_cons]
    · simp only [List.countP_append, hlb2]
      simp [Ev.isLogBatch, List.countP_cons]

/-- Witness for C7: `save_interval = 50` on a source of 10 batches gives
exactly one save (the one at batch index 0) per `train` call. -/
theorem C7_save_at_multiples_witness :
    0 < 50 ∧
    ((ModelTrainer.train demoHooks ⟨0, 0, 0⟩ [] 3 "t" 2 "out" 50
        (List.replicate 10 (([0], [0]) : List ℚ × List ℚ))).trace.countP Ev.isSaveCk) = 1 := by
  refine ⟨by decide, ?_⟩
  rw [(C7_save_at_multiples demoHooks ⟨0, 0, 0⟩ [] 3 "t" 2 "out" 50
    (List.replicate 10 ([0], [0])) (by decide)).1]
  decide

/-! ### Loop lemmas: metric accumulation -/

/-- The `train` loop appends exactly one metric observation per batch,
appends no phase-end log, and its four running sums grow by exactly the
observed per-batch values. -/
theorem runTrain_obs {M O S MD OD SD Img Msk : Type}
    (H : Hooks M O S MD OD SD Img Msk) (sched : S) (epoch : ℕ)
    (batch_size save_interval : ℕ) (save_path start_time : String) :
    ∀ (bs : List (Img × Msk)) (st : ModelTrainer.TrainLoopSt M O MD OD SD) (idx : ℕ),
      ((obsList (ModelTrainer.runTrain H sched epoch batch_size save_interval save_path
          start_time st idx bs).trace).length = (obsList st.trace).length + bs.length) ∧
      (endLogs (ModelTrainer.runTrain H sched epoch batch_size save_interval save_path
          start_time st idx bs).trace = endLogs st.trace) ∧
      ((ModelTrainer.runTrain H sched epoch batch_size save_interval save_path
          start_time st idx bs).sumL
        - ((obsList (ModelTrainer.runTrain H sched epoch batch_size save_interval save_path
            start_time st idx bs).trace).map (fun u => u.1)).sum
        = st.sumL - ((obsList st.trace).map (fun u => u.1)).sum) ∧
      ((ModelTrainer.runTrain H sched epoch batch_size save_interval save_path
          start_time st idx bs).sumP
        - ((obsList (ModelTrainer.runTrain H sched epoch batch_size save_interval save_path
            start_time st idx bs).trace).map (fun u => u.2.1)).sum
        = st.sumP - ((obsList st.trace).map (fun u => u.2.1)).sum) ∧
      ((ModelTrainer.runTrain H sched epoch batch_size save_interval save_path
          start_time st idx bs).sumR
        - ((obsList (ModelTrainer.runTrain H sched epoch batch_size save_interval save_path
            start_time st idx bs).trace).map (fun u => u.2.2.1)).sum
        = st.sumR - ((obsList st.trace).map (fun u => u.2.2.1)).sum) ∧
      ((ModelTrainer.runTrain H sched epoch batch_size save_interval save_path
          start_time st idx bs).sumF1
        - ((obsList (ModelTrainer.runTrain H sched epoch batch_size save_interval save_path
            start_time st idx bs).trace).map (fun u => u.2.2.2)).sum
        = st.sumF1 - ((obsList st.trace).map (fun u => u.2.2.2)).sum) := by
  intro bs
  induction bs with
  | nil =>
    intro st idx
    simp [ModelTrainer.runTrain]
  | cons b bs ih =>
    intro st idx
    rw [ModelTrainer.runTrain]
    obtain ⟨ihlen, ihend, ihL, ihP, ihR, ihF⟩ :=
      ih (ModelTrainer.trainBatch H sched epoch batch_size save_interval save_path
        start_time st idx b) (idx + 1)
    have hb : obsList (ModelTrainer.trainBatch H sched epoch batch_size save_interval
        save_path start_time st idx b).trace
        = obsList st.trace ++ [ModelTrainer.batchMetrics H st.model b] := by
      simp only [ModelTrainer.trainBatch, ModelTrainer.trainBatchEvs, obsList,
        List.filterMap_append]
      split <;> simp [Ev.metricsOf?]
    have hend : endLogs (ModelTrainer.trainBatch H sched epoch batch_size save_interval
        save_path start_time st idx b).trace = endLogs st.trace := by
      simp only [ModelTrainer.trainBatch, ModelTrainer.trainBatchEvs, endLogs,
        List.filterMap_append]
      split <;> simp [Ev.endLogOf?]
    have hsL : (ModelTrainer.trainBatch H sched epoch batch_size save_interval save_path
        start_time st idx b).sumL = st.sumL + (ModelTrainer.batchMetrics H st.model b).1 := by
      simp [ModelTrainer.trainBatch]
    have hsP : (ModelTrainer.trainBatch H sched epoch batch_size save_interval save_path
        start_time st idx b).sumP = st.sumP + (ModelTrainer.batchMetrics H st.model b).2.1 := by
      simp [ModelTrainer.trainBatch]
    have hsR : (ModelTrainer.trainBatch H sched epoch batch_size save_interval save_path
        start_time st idx b).sumR = st.sumR + (ModelTrainer.batchMetrics H st.model b).2.2.1 := by
      simp [ModelTrainer.trainBatch]
    have hsF : (ModelTrainer.trainBatch H sched epoch batch_size save_interval save_path
        start_time st idx b).sumF1 = st.sumF1 + (ModelTrainer.batchMetrics H st.model b).2.2.2 := by
      simp [ModelTrainer.trainBatch]
    refine ⟨?_, ?_, ?_, ?_, ?_, ?_⟩
    · rw [ihlen, hb]
      simp only [List.length_append, List.length_cons, List.length_nil]
      omega
    · rw [ihend, hend]
    · rw [ihL, hb, hsL]
      simp only [List.map_append, List.sum_append, List.map_cons, List.map_nil,
        List.sum_cons, List.sum_nil]
      ring
    · rw [ihP, hb, hsP]
      simp only [List.map_append, List.sum_append, List.map_cons, List.map_nil,
        List.sum_cons, List.sum_nil]
      ring
    · rw [ihR, hb, hsR]
      simp only [List.map_append, List.sum_append, List.map_cons, List.map_nil,
        List.sum_cons, List.sum_nil]
      ring
    · rw [ihF, hb, hsF]
      simp only [List.map_append, List.sum_append, List.map_cons, List.map_nil,
        List.sum_cons, List.sum_nil]
      ring

/-- Same accumulation facts for the `validate` loop. -/
theorem runValid_obs {M O S MD OD SD Img Msk : Type}
    (H : Hooks M O S MD OD SD Img Msk) (m : M) (epoch : ℕ)
    (batch_size save_interval : ℕ) :
    ∀ (bs : List (Img × Msk)) (st : ModelTrainer.ValidLoopSt) (idx : ℕ),
      ((obsList (ModelTrainer.runValid H m epoch batch_size save_interval
          st idx bs).trace).length = (obsList st.trace).length + bs.length) ∧
      (endLogs (ModelTrainer.runValid H m epoch batch_size save_interval
          st idx bs).trace = endLogs st.trace) ∧
      ((ModelTrainer.runValid H m epoch batch_size save_interval st idx bs).sumL
        - ((obsList (ModelTrainer.runValid H m epoch batch_size save_interval
            st idx bs).trace).map (fun u => u.1)).sum
        = st.sumL - ((obsList st.trace).map (fun u => u.1)).sum) ∧
      ((ModelTrainer.runValid H m epoch batch_size save_interval st idx bs).sumP
        - ((obsList (ModelTrainer.runValid H m epoch batch_size save_interval
            st idx bs).trace).map (fun u => u.2.1)).sum
        = st.sumP - ((obsList st.trace).map (fun u => u.2.1)).sum) ∧
      ((ModelTrainer.runValid H m epoch batch_size save_interval st idx bs).sumR
        - ((obsList (ModelTrainer.runValid H m epoch batch_size save_interval
            st idx bs).trace).map (fun u => u.2.2.1)).sum
        = st.sumR - ((obsList st.trace).map (fun u => u.2.2.1)).sum) ∧
      ((ModelTrainer.runValid H m epoch batch_size save_interval st idx bs).sumF1
        - ((obsList (ModelTrainer.runValid H m epoch batch_size save_interval
            st idx bs).trace).map (fun u => u.2.2.2)).sum
        = st.sumF1 - ((obsList st.trace).map (fun u => u.2.2.2)).sum) := by
  intro bs
  induction bs with
  | nil =>
    intro st idx
    simp [ModelTrainer.runValid]
  | cons b bs ih =>
    intro st idx
    rw [ModelTrainer.runValid]
    obtain ⟨ihlen, ihend, ihL, ihP, ihR, ihF⟩ :=
      ih (ModelTrainer.validBatch H m epoch batch_size save_interval st idx b) (idx + 1)
    have hb : obsList (ModelTrainer.validBatch H m epoch batch_size save_interval
        st idx b).trace = obsList st.trace ++ [ModelTrainer.batchMetrics H m b] := by
      simp only [ModelTrainer.validBatch, ModelTrainer.validBatchEvs, obsList,
        List.filterMap_append]
      split <;> simp [Ev.metricsOf?]
    have hend : endLogs (ModelTrainer.validBatch H m epoch batch_size save_interval
        st idx b).trace = endLogs st.trace := by
      simp only [ModelTrainer.validBatch, ModelTrainer.validBatchEvs, endLogs,
        List.filterMap_append]
      split <;> simp [Ev.endLogOf?]
    have hsL : (ModelTrainer.validBatch H m epoch batch_size save_interval st idx b).sumL
        = st.sumL + (ModelTrainer.batchMetrics H m b).1 := by
      simp [ModelTrainer.validBatch]
    have hsP : (ModelTrainer.validBatch H m epoch batch_size save_interval st idx b).sumP
        = st.sumP + (ModelTrainer.batchMetrics H m b).2.1 := by
      simp [ModelTrainer.validBatch]
    have hsR : (ModelTrainer.validBatch H m epoch batch_size save_interval st idx b).sumR
        = st.sumR + (ModelTrainer.batchMetrics H m b).2.2.1 := by
      simp [ModelTrainer.validBatch]
    have hsF : (ModelTrainer.validBatch H m epoch batch_size save_interval st idx b).sumF1
        = st.sumF1 + (ModelTrainer.batchMetrics H m b).2.2.2 := by
      simp [ModelTrainer.validBatch]
    refine ⟨?_, ?_, ?_, ?_, ?_, ?_⟩
    · rw [ihlen, hb]
      simp only [List.length_append, List.length_cons, List.length_nil]
      omega
    · rw [ihend, hend]
    · rw [ihL, hb, hsL]
      simp only [List.map_append, List.sum_append, List.map_cons, List.map_nil,
        List.sum_cons, List.sum_nil]
      ring
    · rw [ihP, hb, hsP]
      simp only [List.map_append, List.sum_append, List.map_cons, List.map_nil,
        List.sum_cons, List.sum_nil]
      ring
    · rw [ihR, hb, hsR]
      simp only [List.map_append, List.sum_append, List.map_cons, List.map_nil,
        List.sum_cons, List.sum_nil]
      ring
    · rw [ihF, hb, hsF]
      simp only [List.map_append, List.sum_append, List.map_cons, List.map_nil,
        List.sum_cons, List.sum_nil]
      ring

/-- **C6**: for a non-empty source, the phase-end log of `train` reports
loss/precision/recall/F1 equal to the running sums of the per-batch values
divided by exactly `len(data_source)` — the arithmetic mean over the `N`
observed batches — and likewise for `validate`. -/
theorem C6_epoch_metrics_are_batch_means {M O S MD OD SD Img Msk : Type}
    (H : Hooks M O S MD OD SD Img Msk) (ts : TrainerState M O S)
    (fs : List (String × Checkpoint MD OD SD)) (epoch : ℕ)
    (start_time : String) (batch_size : ℕ) (save_path : String)
    (save_interval : ℕ) (tb vb : List (Img × Msk))
    (hT : 1 ≤ tb.length) (hV : 1 ≤ vb.length) :
    ((obsList (ModelTrainer.train H ts fs epoch start_time batch_size save_path save_interval
        tb).trace).length = tb.length ∧
      endLogs (ModelTrainer.train H ts fs epoch start_time batch_size save_path save_interval
          tb).trace
        = [("train", epoch,
            ((obsList (ModelTrainer.train H ts fs epoch start_time batch_size save_path
                save_interval tb).trace).map (fun u => u.1)).sum / (tb.length : ℚ),
            ((obsList (ModelTrainer.train H ts fs epoch start_time batch_size save_path
                save_interval tb).trace).map (fun u => u.2.1)).sum / (tb.length : ℚ),
            ((obsList (ModelTrainer.train H ts fs epoch start_time batch_size save_path
                save_interval tb).trace).map (fun u => u.2.2.1)).sum / (tb.length : ℚ),
            ((obsList (ModelTrainer.train H ts fs epoch start_time batch_size save_path
                save_interval tb).trace).map (fun u => u.2.2.2)).sum / (tb.length : ℚ))]) ∧
    ((obsList (ModelTrainer.validate H ts fs epoch start_time batch_size save_path save_interval
        vb).trace).length = vb.length ∧
      endLogs (ModelTrainer.validate H ts fs epoch start_time batch_size save_path save_interval
          vb).trace
        = [("valid", epoch,
            ((obsList (ModelTrainer.validate H ts fs epoch start_time batch_size save_path
                save_interval vb).trace).map (fun u => u.1)).sum / (vb.length : ℚ),
            ((obsList (ModelTrainer.validate H ts fs epoch start_time batch_size save_path
                save_interval vb).trace).map (fun u => u.2.1)).sum / (vb.length : ℚ),
            ((obsList (ModelTrainer.validate H ts fs epoch start_time batch_size save_path
                save_interval vb).trace).map (fun u => u.2.2.1)).sum / (vb.length : ℚ),
            ((obsList (ModelTrainer.validate H ts fs epoch start_time batch_size save_path
                save_interval vb).trace).map (fun u => u.2.2.2)).sum / (vb.length : ℚ))]) := by
  have hne : ¬ tb.length = 0 := by omega
  have hneV : ¬ vb.length = 0 := by omega
  have obsApp : ∀ (t1 t2 : List Ev), obsList (t1 ++ t2) = obsList t1 ++ obsList t2 := by
    intro t1 t2
    simp [obsList]
  have endApp : ∀ (t1 t2 : List Ev), endLogs (t1 ++ t2) = endLogs t1 ++ endLogs t2 := by
    intro t1 t2
    simp [endLogs]
  have tailObsT : ∀ (l p r f : ℚ),
      obsList [Ev.schedStep, Ev.logEnd "train" epoch l p r f] = [] := by
    intro l p r f
    simp [obsList, Ev.metricsOf?]
  have tailEndT : ∀ (l p r f : ℚ),
      endLogs [Ev.schedStep, Ev.logEnd "train" epoch l p r f]
        = [("train", epoch, l, p, r, f)] := by
    intro l p r f
    simp [endLogs, Ev.endLogOf?]
  have tailObsV : ∀ (l p r f : ℚ), obsList [Ev.logEnd "valid" epoch l p r f] = [] := by
    intro l p r f
    simp [obsList, Ev.metricsOf?]
  have tailEndV : ∀ (l p r f : ℚ),
      endLogs [Ev.logEnd "valid" epoch l p r f] = [("valid", epoch, l, p, r, f)] := by
    intro l p r f
    simp [endLogs, Ev.endLogOf?]
  obtain ⟨hlen, hend, hL, hP, hR, hF⟩ := runTrain_obs H ts.scheduler epoch batch_size
    save_interval save_path start_time tb ⟨ts.model, ts.optimizer, fs, [], 0, 0, 0, 0⟩ 0
  obtain ⟨hlenV, hendV, hLV, hPV, hRV, hFV⟩ := runValid_obs H ts.model epoch batch_size
    save_interval vb ⟨[], 0, 0, 0, 0⟩ 0
  simp only [obsList, endLogs, List.filterMap_nil, List.map_nil, List.sum_nil,
    List.length_nil, Nat.zero_add, sub_zero] at hlen hend hL hP hR hF hlenV hendV hLV hPV hRV hFV
  rw [sub_eq_zero] at hL hP hR hF hLV hPV hRV hFV
  simp only [ModelTrainer.train, ModelTrainer.validate]
  rw [if_neg hne, if_neg hneV]
  simp only [obsApp, endApp, tailObsT, tailEndT, tailObsV, tailEndV, List.append_nil]
  refine ⟨⟨?_, ?_⟩, ⟨?_, ?_⟩⟩
  · simpa [obsList] using hlen
  · simp only [obsList, endLogs] at *
    rw [hend, hL, hP, hR, hF]
    simp
  · simpa [obsList] using hlenV
  · simp only [obsList, endLogs] at *
    rw [hendV, hLV, hPV, hRV, hFV]
    simp

/-- Witness for C6 on singleton sources. -/
theorem C6_epoch_metrics_witness :
    1 ≤ ([(([1], [1]) : List ℚ × List ℚ)]).length ∧
    1 ≤ ([(([0], [0]) : List ℚ × List ℚ)]).length ∧
    ((obsList (ModelTrainer.train demoHooks ⟨0, 0, 0⟩ [] 2 "t" 1 "out" 50
        [([1], [1])]).trace).length = [(([1], [1]) : List ℚ × List ℚ)].length ∧
      endLogs (ModelTrainer.train demoHooks ⟨0, 0, 0⟩ [] 2 "t" 1 "out" 50
          [([1], [1])]).trace
        = [("train", 2,
            ((obsList (ModelTrainer.train demoHooks ⟨0, 0, 0⟩ [] 2 "t" 1 "out" 50
                [([1], [1])]).trace).map (fun u => u.1)).sum / (([(([1], [1]) : List ℚ × List ℚ)].length : ℕ) : ℚ),
            ((obsList (ModelTrainer.train demoHooks ⟨0, 0, 0⟩ [] 2 "t" 1 "out" 50
                [([1], [1])]).trace).map (fun u => u.2.1)).sum / (([(([1], [1]) : List ℚ × List ℚ)].length : ℕ) : ℚ),
            ((obsList (ModelTrainer.train demoHooks ⟨0, 0, 0⟩ [] 2 "t" 1 "out" 50
                [([1], [1])]).trace).map (fun u => u.2.2.1)).sum / (([(([1], [1]) : List ℚ × List ℚ)].length : ℕ) : ℚ),
            ((obsList (ModelTrainer.train demoHooks ⟨0, 0, 0⟩ [] 2 "t" 1 "out" 50
                [([1], [1])]).trace).map (fun u => u.2.2.2)).sum / (([(([1], [1]) : List ℚ × List ℚ)].length : ℕ) : ℚ))]) ∧
    ((obsList (ModelTrainer.validate demoHooks ⟨0, 0, 0⟩ [] 2 "t" 1 "out" 50
        [([0], [0])]).trace).length = [(([0], [0]) : List ℚ × List ℚ)].length ∧
      endLogs (ModelTrainer.validate demoHooks ⟨0, 0, 0⟩ [] 2 "t" 1 "out" 50
          [([0], [0])]).trace
        = [("valid", 2,
            ((obsList (ModelTrainer.validate demoHooks ⟨0, 0, 0⟩ [] 2 "t" 1 "out" 50
                [([0], [0])]).trace).map (fun u => u.1)).sum / (([(([0], [0]) : List ℚ × List ℚ)].length : ℕ) : ℚ),
            ((obsList (ModelTrainer.validate demoHooks ⟨0, 0, 0⟩ [] 2 "t" 1 "out" 50
                [([0], [0])]).trace).map (fun u => u.2.1)).sum / (([(([0], [0]) : List ℚ × List ℚ)].length : ℕ) : ℚ),
            ((obsList (ModelTrainer.validate demoHooks ⟨0, 0, 0⟩ [] 2 "t" 1 "out" 50
                [([0], [0])]).trace).map (fun u => u.2.2.1)).sum / (([(([0], [0]) : List ℚ × List ℚ)].length : ℕ) : ℚ),
            ((obsList (ModelTrainer.validate demoHooks ⟨0, 0, 0⟩ [] 2 "t" 1 "out" 50
                [([0], [0])]).trace).map (fun u => u.2.2.2)).sum / (([(([0], [0]) : List ℚ × List ℚ)].length : ℕ) : ℚ))]) :=
  ⟨by decide, by decide,
   C6_epoch_metrics_are_batch_means demoHooks ⟨0, 0, 0⟩ [] 2 "t" 1 "out" 50
     [([1], [1])] [([0], [0])] (by decide) (by decide)⟩

/-- **C9**: `init_weights` applies the Kaiming-uniform draw to the weight
tensor of every convolution and every fully-connected layer, sets the bias
tensor of every such layer to the constant `0.01`, and leaves layers of
every other kind unchanged: it coincides with the specification's
directly-recursive description `initWeightsSpec`. -/
theorem C9_init_weights_spec (kaiming : List ℚ → List ℚ) (m : Module) :
    init_weights kaiming m = initWeightsSpec kaiming m := by
  unfold init_weights
  suffices h : ∀ (n : ℕ) (m : Module), sizeOf m ≤ n →
      Module.apply (fill_weights kaiming) m = initWeightsSpec kaiming m from
    h (sizeOf m) m le_rfl
  intro n
  induction n with
  | zero =>
    intro m hm
    cases m <;> simp at hm
  | succ n ih =>
    intro m hm
    cases m with
    | conv2d w b => simp [Module.apply, fill_weights, initWeightsSpec]
    | linear w b => simp [Module.apply, fill_weights, initWeightsSpec]
    | batchNorm2d w b => simp [Module.apply, fill_weights, initWeightsSpec]
    | relu => simp [Module.apply, fill_weights, initWeightsSpec]
    | container cs =>
      simp only [Module.apply, initWeightsSpec]
      have hfill : ∀ xs : List Module,
          fill_weights kaiming (Module.container xs) = Module.container xs := by
        intro xs
        rfl
      rw [hfill]
      congr 1
      apply List.map_congr_left
      intro c hc
      apply ih
      have hmem := List.sizeOf_lt_of_mem c.2
      have hsz : sizeOf (Module.container cs) = 1 + sizeOf cs := by
        simp
      omega

end Craters
